import Mathlib

/-
Verification of the SMPC_UGV_Planner core (SMPC_ugv.py): shallow embedding of
the cooperative covariance-fusion model, the chance-constraint tightening and
flag hysteresis, the obstacle preprocessor, and the dynamics-branch selection.

Numeric modelling: the Python code computes with IEEE doubles; the embedding
idealises scalars as exact rationals where the computation is purely
arithmetic (the 2x2 covariance algebra of update_2 / update_3) and as real
numbers where square roots appear (obstacle geometry, distances, tightening
margins).  np.linalg.inv raises LinAlgError exactly on a singular matrix and
the source substitutes a zero matrix in that case, so the embedded inverse
maps a zero-determinant matrix to the zero matrix.
-/

namespace SMPC

/-- A 2x2 matrix with rational entries, covering the covariance blocks
P11, P12, P22 and R12 of SMPC_ugv.py. -/
structure Mat2 where
  m11 : ℚ
  m12 : ℚ
  m21 : ℚ
  m22 : ℚ
deriving DecidableEq

namespace Mat2

def zero : Mat2 := ⟨0, 0, 0, 0⟩

def one : Mat2 := ⟨1, 0, 0, 1⟩

def add (A B : Mat2) : Mat2 :=
  ⟨A.m11 + B.m11, A.m12 + B.m12, A.m21 + B.m21, A.m22 + B.m22⟩

def sub (A B : Mat2) : Mat2 :=
  ⟨A.m11 - B.m11, A.m12 - B.m12, A.m21 - B.m21, A.m22 - B.m22⟩

def mul (A B : Mat2) : Mat2 :=
  ⟨A.m11 * B.m11 + A.m12 * B.m21, A.m11 * B.m12 + A.m12 * B.m22,
   A.m21 * B.m11 + A.m22 * B.m21, A.m21 * B.m12 + A.m22 * B.m22⟩

def transpose (A : Mat2) : Mat2 := ⟨A.m11, A.m21, A.m12, A.m22⟩

def det (A : Mat2) : ℚ := A.m11 * A.m22 - A.m12 * A.m21

/-- np.linalg.inv for a 2x2 matrix, with the source's fallback: both
update_2 and update_3 catch LinAlgError and use a zero matrix instead
(SMPC_ugv.py lines 322-329 and 396-403). -/
def invOrZero (A : Mat2) : Mat2 :=
  if A.det = 0 then zero
  else ⟨A.m22 / A.det, -A.m12 / A.det, -A.m21 / A.det, A.m11 / A.det⟩

end Mat2

instance : Add Mat2 := ⟨Mat2.add⟩

instance : Sub Mat2 := ⟨Mat2.sub⟩

instance : Mul Mat2 := ⟨Mat2.mul⟩

/-- A 2-vector of rationals (planar position). -/
structure Vec2 where
  x : ℚ
  y : ℚ
deriving DecidableEq

def Vec2.add (v w : Vec2) : Vec2 := ⟨v.x + w.x, v.y + w.y⟩

def Vec2.sub (v w : Vec2) : Vec2 := ⟨v.x - w.x, v.y - w.y⟩

instance : Add Vec2 := ⟨Vec2.add⟩

instance : Sub Vec2 := ⟨Vec2.sub⟩

/-- Matrix-vector product. -/
def Mat2.mulVec (A : Mat2) (v : Vec2) : Vec2 :=
  ⟨A.m11 * v.x + A.m12 * v.y, A.m21 * v.x + A.m22 * v.y⟩

/-- A planner state vector (x, y, theta), the column X[:,k] of the source. -/
structure Vec3 where
  x : ℚ
  y : ℚ
  th : ℚ
deriving DecidableEq

def Vec3.add (v w : Vec3) : Vec3 := ⟨v.x + w.x, v.y + w.y, v.th + w.th⟩

def Vec3.sub (v w : Vec3) : Vec3 := ⟨v.x - w.x, v.y - w.y, v.th - w.th⟩

instance : Add Vec3 := ⟨Vec3.add⟩

instance : Sub Vec3 := ⟨Vec3.sub⟩

/-- The planar (x, y) part of a state, the slice [0:2] of the source. -/
def Vec3.xy (v : Vec3) : Vec2 := ⟨v.x, v.y⟩

/-- next_state_nominal (SMPC_ugv.py lines 190-192): A x + B u with
A = I and B = dT * I (lines 56-57). -/
def next_state_nominal (dT : ℚ) (x u : Vec3) : Vec3 :=
  ⟨x.x + dT * u.x, x.y + dT * u.y, x.th + dT * u.th⟩

/-- next_state_withSystemNoise (lines 195-212): the nominal next state plus
the sampled system noise.  The gaussian samples (x, y from the supplied
covariance, theta from the angle-noise parameter) enter the embedding as the
explicit input `noise`. -/
def next_state_withSystemNoise (dT : ℚ) (x u noise : Vec3) : Vec3 :=
  next_state_nominal dT x u + noise

/-- update_1 (lines 266-269): out-of-range propagation, nominal dynamics
plus injected process noise; it touches neither first_contact nor P12. -/
def update_1 (dT : ℚ) (x u noise : Vec3) : Vec3 :=
  next_state_withSystemNoise dT x u noise

/-- The result of one fused update: the returned state xHat_next_r1_update,
the covariance written back into r1_pos_cov[:, k+1], and the new value of
self.P12. -/
structure FusionResult where
  xOut : Vec3
  P11u : Mat2
  P12u : Mat2
deriving DecidableEq

/-- update_3 (lines 352-427), the first-contact branch: S = P11 + P22 + R12,
K = P11 S^-1, position update from the relative measurement z, heading taken
from the noisy propagated state x_next_r1, P11 updated to P11 - K P11 and
P12 set to P11 S^-1 P22.  `x` and `u` are the current state and control,
`noise` the sampled system noise, `r2next` the other agent's reported state
r2_traj[:, k+1], `P11` and `P22` the two agents' propagated covariances at
k+1 and `R12` the relative measurement noise. -/
def update_3 (dT : ℚ) (x u noise r2next : Vec3) (P11 P22 R12 : Mat2) :
    FusionResult :=
  let xHat_next_r1_noUpdate := next_state_nominal dT x u
  let x_next_r1 := next_state_withSystemNoise dT x u noise
  let xHat_next_r2_noUpdate := r2next
  let x_next_r2 := xHat_next_r2_noUpdate
  let z := x_next_r1 - x_next_r2
  let S := P11 + P22 + R12
  let S_inv := S.invOrZero
  let K := P11 * S_inv
  let posU := xHat_next_r1_noUpdate.xy +
    K.mulVec (z.xy - (xHat_next_r1_noUpdate.xy - xHat_next_r2_noUpdate.xy))
  { xOut := ⟨posU.x, posU.y, x_next_r1.th⟩
    P11u := P11 - (P11 * S_inv) * P11
    P12u := P11 * S_inv * P22 }

/-- The else branch of update_2 (lines 275-350), the steady-contact fusion:
S = P11 - P12 - P12^T + P22 + R12, K = (P11 - P12) S^-1, position update from
the relative measurement, heading from the noisy propagated state,
P11 updated to P11 - K (P11 - P12^T) and P12 set to P11 S^-1 P22. -/
def update_2_steady (dT : ℚ) (x u noise r2next : Vec3) (P11 P12 P22 R12 : Mat2) :
    FusionResult :=
  let xHat_next_r1_noUpdate := next_state_nominal dT x u
  let x_next_r1 := next_state_withSystemNoise dT x u noise
  let xHat_next_r2_noUpdate := r2next
  let x_next_r2 := xHat_next_r2_noUpdate
  let z := x_next_r1 - x_next_r2
  let P21 := P12.transpose
  let S := P11 - P12 - P21 + P22 + R12
  let S_inv := S.invOrZero
  let K := (P11 - P12) * S_inv
  let posU := xHat_next_r1_noUpdate.xy +
    K.mulVec (z.xy - (xHat_next_r1_noUpdate.xy - xHat_next_r2_noUpdate.xy))
  { xOut := ⟨posU.x, posU.y, x_next_r1.th⟩
    P11u := P11 - ((P11 - P12) * S_inv) * (P11 - P21)
    P12u := P11 * S_inv * P22 }

/-- The persistent fusion state of the planner: the first_contact flag
(line 84) and the cross covariance P12 (line 82). -/
structure PlannerState where
  first_contact : Bool
  P12 : Mat2
deriving DecidableEq

/-- Construction-time state: P12 = 0 and first_contact = False
(lines 82-84). -/
def initState : PlannerState := ⟨false, Mat2.zero⟩

/-- The per-step inputs the fusion consumes: time step, current state and
control, sampled noise, the other agent's reported state, the two agents'
propagated covariances at k+1 and the relative measurement noise. -/
structure StepIn where
  dT : ℚ
  x : Vec3
  u : Vec3
  noise : Vec3
  r2next : Vec3
  P11 : Mat2
  P22 : Mat2
  R12 : Mat2
deriving DecidableEq

/-- One step of the contact state machine.  In range (update_2, lines
271-350): if first_contact is false the first-contact branch update_3 runs
and sets first_contact to True (line 425); otherwise the steady branch runs.
Either fused branch overwrites P12.  Out of range (update_1) nothing of the
persistent state changes. -/
def fusionStepState (st : PlannerState) (inRange : Bool) (s : StepIn) :
    PlannerState :=
  if inRange then
    if st.first_contact then
      ⟨st.first_contact,
        (update_2_steady s.dT s.x s.u s.noise s.r2next s.P11 st.P12 s.P22 s.R12).P12u⟩
    else
      ⟨true, (update_3 s.dT s.x s.u s.noise s.r2next s.P11 s.P22 s.R12).P12u⟩
  else st

/-- Run the state machine over a sequence of steps; each element carries the
in-range discriminator of lines 227-232 and the step's covariance inputs. -/
def runSteps (st : PlannerState) (steps : List (Bool × StepIn)) : PlannerState :=
  steps.foldl (fun acc s => fusionStepState acc s.1 s.2) st

/-! Geometry: the obstacle preprocessor (init_obstacles, lines 484-530) and
the chance-constraint layer (chance_constraints, lines 430-474), embedded
over the real numbers because they divide by Euclidean norms. -/

/-- The per-edge vector of init_obstacles (lines 504-508 and 521-525):
dx = x0 - x1, dy = y0 - y1, V = [dy, dx], a = V / sqrt(dy^2 + dx^2).
Note the source builds [dy, dx], not the rotated [dy, -dx]. -/
noncomputable def aVec (p1 p2 : ℝ × ℝ) : ℝ × ℝ :=
  (((p1.2 - p2.2) / Real.sqrt ((p1.2 - p2.2) ^ 2 + (p1.1 - p2.1) ^ 2)),
   ((p1.1 - p2.1) / Real.sqrt ((p1.2 - p2.2) ^ 2 + (p1.1 - p2.1) ^ 2)))

/-- scipy.stats.linregress on the two endpoints of an edge fits the line
through them: slope (y0 - y1) / (x0 - x1).  A vertical edge gives nan in
scipy; in this embedding division by zero gives 0, and no claim below
touches that case. -/
noncomputable def slopeOf (p1 p2 : ℝ × ℝ) : ℝ := (p1.2 - p2.2) / (p1.1 - p2.1)

/-- The linregress intercept: mean of y minus slope times mean of x. -/
noncomputable def interceptOf (p1 p2 : ℝ × ℝ) : ℝ :=
  (p1.2 + p2.2) / 2 - slopeOf p1 p2 * ((p1.1 + p2.1) / 2)

/-- Edge data stored back into an obstacle entry by init_obstacles:
the 'a' vectors, the 'slopes' and the 'intercepts'. -/
structure EdgeData where
  aList : List (ℝ × ℝ)
  slopes : List ℝ
  intercepts : List ℝ

/-- The edges init_obstacles walks (lines 492-525): consecutive vertex
pairs, plus the wrap edge from the last vertex back to the first appended at
the end of the final iteration.  A ring of fewer than two vertices makes the
inner loop body never run, so it produces no edges. -/
def obstacleEdges (v : List (ℝ × ℝ)) : List ((ℝ × ℝ) × (ℝ × ℝ)) :=
  match v with
  | [] => []
  | [_] => []
  | _ => v.zip (v.rotate 1)

/-- The data init_obstacles derives for one obstacle. -/
noncomputable def preprocessObstacle (v : List (ℝ × ℝ)) : EdgeData :=
  { aList := (obstacleEdges v).map (fun e => aVec e.1 e.2)
    slopes := (obstacleEdges v).map (fun e => slopeOf e.1 e.2)
    intercepts := (obstacleEdges v).map (fun e => interceptOf e.1 e.2) }

/-- init_obstacles (lines 484-530) over a dictionary keyed 1..n of obstacle
vertex rings: the loop `for i in range(1, len(obstacles))` visits the keys
1..n-1 and stores the derived edge data under each visited key. -/
noncomputable def init_obstacles (obs : ℕ → List (ℝ × ℝ)) (n : ℕ) :
    ℕ → Option EdgeData :=
  (List.range' 1 (n - 1)).foldl
    (fun acc i => fun k => if k = i then some (preprocessObstacle (obs i)) else acc k)
    (fun _ => none)

/-- A 2x2 matrix with real entries, for the fixed positional covariance the
chance constraints read. -/
structure Mat2R where
  m11 : ℝ
  m12 : ℝ
  m21 : ℝ
  m22 : ℝ

/-- The quadratic form a^T A a, the value of np.dot(np.dot(a^T, A), a). -/
noncomputable def quadForm (A : Mat2R) (a : ℝ × ℝ) : ℝ :=
  a.1 * (A.m11 * a.1 + A.m12 * a.2) + a.2 * (A.m21 * a.1 + A.m22 * a.2)

/-- self.r1_cov_curr (line 79): diag(0.1 + robot_size) twice, fixed at
construction. -/
noncomputable def r1_cov_curr (robot_size : ℝ) : Mat2R :=
  ⟨1 / 10 + robot_size, 0, 0, 1 / 10 + robot_size⟩

/-- The tightening margin of lines 460-462:
sqrt(2 a^T r1_cov_curr a) * erfinv(1 - 2 * 0.5).  The risk is the literal
0.5 and the covariance the fixed construction-time r1_cov_curr; neither the
obstacle's configured risk field nor the horizon-indexed covariances
r1_pos_cov enter.  erfinv stands for scipy.special.erfinv. -/
noncomputable def margin (erfinv : ℝ → ℝ) (robot_size : ℝ) (a : ℝ × ℝ) : ℝ :=
  Real.sqrt (2 * quadForm (r1_cov_curr robot_size) a) * erfinv (1 - 2 * (1 / 2))

/-- a1 of chance_constraints (lines 435-445): from the edge (5,5)-(6,7),
dx = 5 - 6, dy = 5 - 7, a1 = [dy, -dx]. -/
noncomputable def chance_a1 : ℝ × ℝ := (5 - 7, -(5 - 6))

/-- b1 (lines 438-446): the linregress intercept of the edge (5,5)-(6,7). -/
noncomputable def chance_b1 : ℝ := interceptOf (5, 5) (6, 7)

/-- a2 (line 448): the hand-written [1.8, 1]. -/
noncomputable def chance_a2 : ℝ × ℝ := (9 / 5, 1)

/-- b2 (line 449): obs[1]['intercepts'][1], the intercept of obstacle 1's
second edge (6,7)-(7,5.2). -/
noncomputable def chance_b2 : ℝ := interceptOf (6, 7) (7, 26 / 5)

/-- a3 (lines 451-455): obs[1]['a'][:,2] is the preprocessor's vector for
the wrap edge (7,5.2)-(5,5); the caller then negates its second
component. -/
noncomputable def chance_a3 : ℝ × ℝ :=
  ((aVec (7, 26 / 5) (5, 5)).1, -(aVec (7, 26 / 5) (5, 5)).2)

/-- b3 (line 452): the wrap edge's intercept times -1. -/
noncomputable def chance_b3 : ℝ := interceptOf (7, 26 / 5) (5, 5) * (-1)

/-- One per-edge sign of lines 465-467: if_else(a^T p - b >= c, 1, -1). -/
noncomputable def edgeSign (a : ℝ × ℝ) (b c : ℝ) (p : ℝ × ℝ) : ℤ :=
  if a.1 * p.1 + a.2 * p.2 - b ≥ c then 1 else -1

/-- The flag triple emitted for one horizon step (lines 464-468).  Line 468
is if_else(cumsum(flag[:,i]) == -3, flag_const, flag[:,i]): casadi's
non-short-circuit if_else is built from the elementwise if_else_zero, so
with a 3-vector condition each component falls back separately; the
condition components are the partial sums s1, s1+s2, s1+s2+s3 compared with
-3.  flag_const is the 3x1 parameter the driver sets to the previous
solution's flag at horizon index 0 (lines 149-150 and 625); its initial
value is (-1,-1,-1). -/
noncomputable def emitFlags (erfinv : ℝ → ℝ) (robot_size : ℝ)
    (flag_const : ℤ × ℤ × ℤ) (p : ℝ × ℝ) : ℤ × ℤ × ℤ :=
  let s1 := edgeSign chance_a1 chance_b1 (margin erfinv robot_size chance_a1) p
  let s2 := edgeSign chance_a2 chance_b2 (margin erfinv robot_size chance_a2) p
  let s3 := edgeSign chance_a3 chance_b3 (margin erfinv robot_size chance_a3) p
  (if s1 = -3 then flag_const.1 else s1,
   if s1 + s2 = -3 then flag_const.2.1 else s2,
   if s1 + s2 + s3 = -3 then flag_const.2.2 else s3)

/-- The quantity the dynamics-branch selection of lines 227-232 compares
with maxComm_distance, exactly as written in the source:
sqrt((x1 - x2)^2 + (y1 - y2^2)) - the square sits on the second agent's y
coordinate alone, not on the difference. -/
noncomputable def commDistExpr (x1 y1 x2 y2 : ℝ) : ℝ :=
  Real.sqrt ((x1 - x2) ^ 2 + (y1 - y2 ^ 2))

/-- The Euclidean distance the specification describes for the same branch
selection; written from the spec's words for comparison with
commDistExpr. -/
noncomputable def euclidDistSpec (x1 y1 x2 y2 : ℝ) : ℝ :=
  Real.sqrt ((x1 - x2) ^ 2 + (y1 - y2) ^ 2)

/-- The three branches of the nested if_else in init_constraints
(lines 227-232). -/
inductive DynBranch where
  | noFusion
  | fusion
  | dead
deriving DecidableEq

/-- The branch the nested if_else of lines 227-232 selects, as a function of
the compared quantity d and maxComm_distance: update_1 when d >= max,
update_2 when d < max, and the constant 0 otherwise. -/
noncomputable def dynamicsBranch (d maxComm : ℝ) : DynBranch :=
  if d ≥ maxComm then .noFusion else if d < maxComm then .fusion else .dead

/-- A concrete stand-in for scipy.special.erfinv in closed statements: the
program only ever evaluates erfinv at 1 - 2 * 0.5 = 0, and the inverse error
function is odd with erfinv 0 = 0 (scipy returns exactly 0.0 there), so any
function with value 0 at 0 reproduces the program's arithmetic; this one is
zero everywhere. -/
def efZero : ℝ → ℝ := fun _ => 0

/-- The steady-contact cross-covariance update as the specification words
it: P12 - (P11 - P12) S^-1 (P12 - P22).  Written from the spec's words, to
be compared with the source's update_2_steady. -/
def specSteadyP12 (P11 P12 P22 R12 : Mat2) : Mat2 :=
  P12 - ((P11 - P12) * (P11 - P12 - P12.transpose + P22 + R12).invOrZero) *
    (P12 - P22)

/-! Helper lemmas about the 2x2 matrix algebra. -/

theorem Mat2.addM_def (A B : Mat2) : A + B = Mat2.add A B := rfl

theorem Mat2.subM_def (A B : Mat2) : A - B = Mat2.sub A B := rfl

theorem Mat2.mulM_def (A B : Mat2) : A * B = Mat2.mul A B := rfl

theorem Vec2.addV2_def (v w : Vec2) : v + w = Vec2.add v w := rfl

theorem Vec2.subV2_def (v w : Vec2) : v - w = Vec2.sub v w := rfl

theorem Vec3.addV3_def (v w : Vec3) : v + w = Vec3.add v w := rfl

theorem Vec3.subV3_def (v w : Vec3) : v - w = Vec3.sub v w := rfl

theorem Mat2.mul_zeroM (A : Mat2) : A * Mat2.zero = Mat2.zero := by
  show Mat2.mul A Mat2.zero = Mat2.zero
  simp [Mat2.mul, Mat2.zero]

theorem Mat2.zeroM_mul (A : Mat2) : Mat2.zero * A = Mat2.zero := by
  show Mat2.mul Mat2.zero A = Mat2.zero
  simp [Mat2.mul, Mat2.zero]

theorem Mat2.sub_zeroM (A : Mat2) : A - Mat2.zero = A := by
  show Mat2.sub A Mat2.zero = A
  simp [Mat2.sub, Mat2.zero]

theorem Mat2.zeroM_mulVec (v : Vec2) : Mat2.zero.mulVec v = ⟨0, 0⟩ := by
  simp [Mat2.mulVec, Mat2.zero]

theorem Vec2.add_zeroV (v : Vec2) : v + (⟨0, 0⟩ : Vec2) = v := by
  show Vec2.add v ⟨0, 0⟩ = v
  simp [Vec2.add]

theorem runSteps_all_out_of_range (st : PlannerState)
    (steps : List (Bool × StepIn)) (h : ∀ p ∈ steps, p.1 = false) :
    runSteps st steps = st := by
  induction steps generalizing st with
  | nil => rfl
  | cons p rest ih =>
      have hp : p.1 = false := h p (List.mem_cons_self p rest)
      have hrest : ∀ q ∈ rest, q.1 = false :=
        fun q hq => h q (List.mem_cons_of_mem p hq)
      show runSteps (fusionStepState st p.1 p.2) rest = st
      rw [hp]
      show runSteps st rest = st
      exact ih st hrest

/-! The claims about the cooperative covariance fusion model. -/

/-- C5 counterexample: with P11 = 2 I, P12 = I, P22 = 2 I and R12 = 0 the
steady-contact branch stores P11 S^-1 P22 = 2 I as the new cross
covariance, while the claimed formula P12 - (P11 - P12) S^-1 (P12 - P22)
gives (3/2) I. -/
theorem c5_counterexample :
    (update_2_steady 0 ⟨0, 0, 0⟩ ⟨0, 0, 0⟩ ⟨0, 0, 0⟩ ⟨0, 0, 0⟩
        ⟨2, 0, 0, 2⟩ ⟨1, 0, 0, 1⟩ ⟨2, 0, 0, 2⟩ Mat2.zero).P12u ≠
      specSteadyP12 ⟨2, 0, 0, 2⟩ ⟨1, 0, 0, 1⟩ ⟨2, 0, 0, 2⟩ Mat2.zero := by
  norm_num [update_2_steady, specSteadyP12, Mat2.mulM_def, Mat2.addM_def,
    Mat2.subM_def, Mat2.mul, Mat2.add, Mat2.sub, Mat2.transpose, Mat2.det,
    Mat2.invOrZero, Mat2.zero, Mat2.mk.injEq]

/-- C5 amended: in the steady-contact branch the updated cross covariance
equals P11 S^-1 P22 (the same shape as the first-contact branch), with
S = P11 - P12 - P12^T + P22 + R12; it is not the spec's
P12 - (P11 - P12) S^-1 (P12 - P22). -/
theorem c5_steady_cross_covariance (dT : ℚ) (x u noise r2next : Vec3)
    (P11 P12 P22 R12 : Mat2) :
    (update_2_steady dT x u noise r2next P11 P12 P22 R12).P12u =
      P11 * (P11 - P12 - P12.transpose + P22 + R12).invOrZero * P22 := rfl

/-- C6: the first-contact branch uses S = P11 + P22 + R12 and K = P11 S^-1,
adds K (z - predicted relative position) to the nominal position, updates
P11 to P11 - K P11, sets P12 to P11 S^-1 P22, and after this one fused
update the contact flag is set, so the next in-range step takes the steady
branch. -/
theorem c6_first_contact_update (dT : ℚ) (x u noise r2next : Vec3)
    (P11 P12 P22 R12 : Mat2) :
    (update_3 dT x u noise r2next P11 P22 R12).xOut.xy =
        (next_state_nominal dT x u).xy +
          (P11 * (P11 + P22 + R12).invOrZero).mulVec
            ((next_state_withSystemNoise dT x u noise - r2next).xy -
              ((next_state_nominal dT x u).xy - r2next.xy)) ∧
      (update_3 dT x u noise r2next P11 P22 R12).P11u =
        P11 - (P11 * (P11 + P22 + R12).invOrZero) * P11 ∧
      (update_3 dT x u noise r2next P11 P22 R12).P12u =
        P11 * (P11 + P22 + R12).invOrZero * P22 ∧
      fusionStepState ⟨false, P12⟩ true ⟨dT, x, u, noise, r2next, P11, P22, R12⟩ =
        ⟨true, (update_3 dT x u noise r2next P11 P22 R12).P12u⟩ ∧
      (fusionStepState ⟨true, P12⟩ true
          ⟨dT, x, u, noise, r2next, P11, P22, R12⟩).P12 =
        (update_2_steady dT x u noise r2next P11 P12 P22 R12).P12u :=
  ⟨rfl, rfl, rfl, rfl, rfl⟩

/-- C7: whenever the innovation matrix of a fusion branch is singular - each
branch considered on its own - that branch's inverse is replaced by the zero
matrix and the update still produces a result: the Kalman correction
vanishes, so the position falls back to the nominal prediction, P11 is kept
and P12 is set to zero. -/
theorem c7_singular_inverse_fallback (dT : ℚ) (x u noise r2next : Vec3)
    (P11 P12 P22 R12 : Mat2) :
    ((P11 + P22 + R12).det = 0 →
      (P11 + P22 + R12).invOrZero = Mat2.zero ∧
        (update_3 dT x u noise r2next P11 P22 R12).P11u = P11 ∧
        (update_3 dT x u noise r2next P11 P22 R12).xOut.xy =
          (next_state_nominal dT x u).xy ∧
        (update_3 dT x u noise r2next P11 P22 R12).P12u = Mat2.zero) ∧
      ((P11 - P12 - P12.transpose + P22 + R12).det = 0 →
        (P11 - P12 - P12.transpose + P22 + R12).invOrZero = Mat2.zero ∧
          (update_2_steady dT x u noise r2next P11 P12 P22 R12).P11u = P11 ∧
          (update_2_steady dT x u noise r2next P11 P12 P22 R12).xOut.xy =
            (next_state_nominal dT x u).xy ∧
          (update_2_steady dT x u noise r2next P11 P12 P22 R12).P12u =
            Mat2.zero) := by
  constructor
  · intro h3
    have e3 : (P11 + P22 + R12).invOrZero = Mat2.zero := by
      simp [Mat2.invOrZero, h3]
    refine ⟨e3, ?_, ?_, ?_⟩
    · show P11 - (P11 * (P11 + P22 + R12).invOrZero) * P11 = P11
      rw [e3, Mat2.mul_zeroM, Mat2.zeroM_mul, Mat2.sub_zeroM]
    · show (next_state_nominal dT x u).xy +
          (P11 * (P11 + P22 + R12).invOrZero).mulVec
            ((next_state_withSystemNoise dT x u noise - r2next).xy -
              ((next_state_nominal dT x u).xy - r2next.xy)) =
        (next_state_nominal dT x u).xy
      rw [e3, Mat2.mul_zeroM, Mat2.zeroM_mulVec, Vec2.add_zeroV]
    · show P11 * (P11 + P22 + R12).invOrZero * P22 = Mat2.zero
      rw [e3, Mat2.mul_zeroM, Mat2.zeroM_mul]
  · intro h2
    have e2 : (P11 - P12 - P12.transpose + P22 + R12).invOrZero =
        Mat2.zero := by
      simp [Mat2.invOrZero, h2]
    refine ⟨e2, ?_, ?_, ?_⟩
    · show P11 -
          ((P11 - P12) * (P11 - P12 - P12.transpose + P22 + R12).invOrZero) *
            (P11 - P12.transpose) = P11
      rw [e2, Mat2.mul_zeroM, Mat2.zeroM_mul, Mat2.sub_zeroM]
    · show (next_state_nominal dT x u).xy +
          ((P11 - P12) *
            (P11 - P12 - P12.transpose + P22 + R12).invOrZero).mulVec
              ((next_state_withSystemNoise dT x u noise - r2next).xy -
                ((next_state_nominal dT x u).xy - r2next.xy)) =
        (next_state_nominal dT x u).xy
      rw [e2, Mat2.mul_zeroM, Mat2.zeroM_mulVec, Vec2.add_zeroV]
    · show P11 * (P11 - P12 - P12.transpose + P22 + R12).invOrZero * P22 =
        Mat2.zero
      rw [e2, Mat2.mul_zeroM, Mat2.zeroM_mul]

/-- C7 witness: with P11 = P12 = P22 = I and R12 = 0 (the shipped relative
measurement noise is exactly zero) only the steady branch's innovation
matrix S = P11 - P12 - P12^T + P22 + R12 = 0 is singular - the first-contact
S = 2 I is regular - and the steady update keeps P11. -/
theorem c7_singular_inverse_fallback_witness :
    (update_2_steady 0 ⟨0, 0, 0⟩ ⟨0, 0, 0⟩ ⟨0, 0, 0⟩ ⟨0, 0, 0⟩
        Mat2.one Mat2.one Mat2.one Mat2.zero).P11u = Mat2.one :=
  ((c7_singular_inverse_fallback 0 ⟨0, 0, 0⟩ ⟨0, 0, 0⟩ ⟨0, 0, 0⟩ ⟨0, 0, 0⟩
      Mat2.one Mat2.one Mat2.one Mat2.zero).2
    (by norm_num [Mat2.addM_def, Mat2.subM_def, Mat2.add, Mat2.sub,
      Mat2.transpose, Mat2.det, Mat2.one, Mat2.zero])).2.1

/-- C8 counterexample: with a sampled angle noise of 1, the heading of the
fused state of the first-contact branch is 1 while the nominal, noise-free
heading is 0: the heading is taken from the noisy propagated state
x_next_r1, not from the nominal prediction. -/
theorem c8_counterexample :
    (update_3 1 ⟨0, 0, 0⟩ ⟨0, 0, 0⟩ ⟨0, 0, 1⟩ ⟨0, 0, 0⟩
        Mat2.zero Mat2.zero Mat2.zero).xOut.th ≠
      (next_state_nominal 1 ⟨0, 0, 0⟩ ⟨0, 0, 0⟩).th := by
  norm_num [update_3, next_state_nominal, next_state_withSystemNoise,
    Vec3.addV3_def, Vec3.add]

/-- C8 amended: in both fusion branches the heading of the fused next state
is the heading of the noise-injected propagated state x_next_r1, that is the
nominal heading plus the sampled angle noise, carried through unmodified by
the fusion; it equals the nominal noise-free heading exactly when that
sample is zero. -/
theorem c8_heading_passthrough (dT : ℚ) (x u noise r2next : Vec3)
    (P11 P12 P22 R12 : Mat2) :
    (update_3 dT x u noise r2next P11 P22 R12).xOut.th =
        (next_state_withSystemNoise dT x u noise).th ∧
      (update_2_steady dT x u noise r2next P11 P12 P22 R12).xOut.th =
        (next_state_withSystemNoise dT x u noise).th ∧
      (next_state_withSystemNoise dT x u noise).th =
        (next_state_nominal dT x u).th + noise.th :=
  ⟨rfl, rfl, rfl⟩

/-- C9 counterexample: after an in-range step has run the first-contact
update, a subsequent out-of-range step leaves the contact flag set: it is
not reset toward the NoContact value it had at construction. -/
theorem c9_counterexample :
    (fusionStepState
        (fusionStepState initState true
          ⟨0, ⟨0, 0, 0⟩, ⟨0, 0, 0⟩, ⟨0, 0, 0⟩, ⟨0, 0, 0⟩,
            Mat2.zero, Mat2.zero, Mat2.zero⟩)
        false
        ⟨0, ⟨0, 0, 0⟩, ⟨0, 0, 0⟩, ⟨0, 0, 0⟩, ⟨0, 0, 0⟩,
          Mat2.zero, Mat2.zero, Mat2.zero⟩).first_contact ≠
      initState.first_contact := by
  simp [fusionStepState, initState]

/-- C9 amended: an out-of-range step performs no fusion - the state
propagates through nominal dynamics plus the injected noise - and leaves the
whole persistent fusion state (both P12 and the contact flag) unchanged; in
particular over any run of out-of-range steps from construction P12 stays
exactly zero, but the contact flag is never reset by going out of range. -/
theorem c9_out_of_range_frame (dT : ℚ) (x u noise : Vec3) (st : PlannerState)
    (s : StepIn) (steps : List (Bool × StepIn))
    (h : ∀ p ∈ steps, p.1 = false) :
    update_1 dT x u noise = next_state_nominal dT x u + noise ∧
      fusionStepState st false s = st ∧
      runSteps initState steps = initState ∧
      (runSteps initState steps).P12 = Mat2.zero := by
  refine ⟨rfl, rfl, runSteps_all_out_of_range initState steps h, ?_⟩
  rw [runSteps_all_out_of_range initState steps h]
  rfl

/-- C9 witness: a concrete two-step out-of-range run keeps P12 at zero. -/
theorem c9_out_of_range_frame_witness :
    (runSteps initState
        [(false, ⟨0, ⟨0, 0, 0⟩, ⟨0, 0, 0⟩, ⟨0, 0, 0⟩, ⟨0, 0, 0⟩,
            Mat2.zero, Mat2.zero, Mat2.zero⟩),
         (false, ⟨0, ⟨0, 0, 0⟩, ⟨0, 0, 0⟩, ⟨0, 0, 0⟩, ⟨0, 0, 0⟩,
            Mat2.zero, Mat2.zero, Mat2.zero⟩)]).P12 = Mat2.zero :=
  (c9_out_of_range_frame 0 ⟨0, 0, 0⟩ ⟨0, 0, 0⟩ ⟨0, 0, 0⟩ initState
    ⟨0, ⟨0, 0, 0⟩, ⟨0, 0, 0⟩, ⟨0, 0, 0⟩, ⟨0, 0, 0⟩,
      Mat2.zero, Mat2.zero, Mat2.zero⟩ _ (by simp)).2.2.2

/-! The claims about the obstacle preprocessor and the chance-constraint
layer. -/

theorem init_obstacles_lookup (obs : ℕ → List (ℝ × ℝ)) (m k : ℕ) :
    ((List.range' 1 m).foldl
        (fun acc i => fun j =>
          if j = i then some (preprocessObstacle (obs i)) else acc j)
        (fun _ => none)) k =
      if 1 ≤ k ∧ k < 1 + m then some (preprocessObstacle (obs k)) else none := by
  induction m with
  | zero =>
      rw [if_neg (by omega)]
      rfl
  | succ m ih =>
      rw [List.range'_concat, List.foldl_append]
      simp only [List.foldl_cons, List.foldl_nil]
      by_cases hk : k = 1 + 1 * m
      · subst hk
        have hc : 1 ≤ 1 + 1 * m ∧ 1 + 1 * m < 1 + (m + 1) := by omega
        simp [hc]
      · simp only [if_neg hk]
        rw [ih]
        by_cases h1 : 1 ≤ k ∧ k < 1 + m
        · have hc : 1 ≤ k ∧ k < 1 + (m + 1) := by omega
          rw [if_pos h1, if_pos hc]
        · have hc : ¬(1 ≤ k ∧ k < 1 + (m + 1)) := by omega
          rw [if_neg h1, if_neg hc]

/-- C10: init_obstacles derives edge data only for the keys 1..n-1 of an
obstacle dictionary keyed 1..n; the last obstacle n is never preprocessed,
and a single-obstacle set gets no preprocessing at all. -/
theorem c10_preprocessed_keys (obs : ℕ → List (ℝ × ℝ)) (n k : ℕ) :
    (init_obstacles obs n k ≠ none ↔ 1 ≤ k ∧ k < n) ∧
      init_obstacles obs n n = none ∧
      init_obstacles obs 1 k = none := by
  have hl : ∀ j, init_obstacles obs n j =
      if 1 ≤ j ∧ j < 1 + (n - 1) then some (preprocessObstacle (obs j))
      else none :=
    fun j => init_obstacles_lookup obs (n - 1) j
  refine ⟨?_, ?_, ?_⟩
  · rw [hl k]
    by_cases h : 1 ≤ k ∧ k < 1 + (n - 1)
    · rw [if_pos h]
      simp only [ne_eq, reduceCtorEq, not_false_eq_true, true_iff]
      omega
    · rw [if_neg h]
      simp only [ne_eq, not_true_eq_false, false_iff]
      omega
  · rw [hl n, if_neg (by omega)]
  · have h3 : init_obstacles obs 1 k =
        if 1 ≤ k ∧ k < 1 + (1 - 1) then some (preprocessObstacle (obs k))
        else none :=
      init_obstacles_lookup obs (1 - 1) k
    rw [h3, if_neg (by omega)]

/-- C3 counterexample: for the first edge (5,5)-(6,7) of the shipped
triangle the preprocessor's vector is (-2,-1)/sqrt 5, and its dot product
with the edge direction (1,2) is -4/sqrt 5, not 0: the output is not
perpendicular to the edge, so it is not the edge direction rotated by 90
degrees. -/
theorem c3_counterexample :
    (aVec (5, 5) (6, 7)).1 * ((6 : ℝ) - 5) +
      (aVec (5, 5) (6, 7)).2 * ((7 : ℝ) - 5) ≠ 0 := by
  have h5 : (0 : ℝ) < Real.sqrt 5 := Real.sqrt_pos.mpr (by norm_num)
  intro h
  simp only [aVec] at h
  norm_num at h
  field_simp [ne_of_gt h5] at h

/-- C3 amended: for an edge with distinct endpoints the preprocessor
outputs (dy, dx)/||(dy, dx)|| (components of the edge difference swapped,
without the sign flip of a true 90-degree rotation): it has Euclidean norm
1 as claimed, but its dot product with the edge direction p2 - p1 is
-(2 dx dy)/||(dy, dx)||, zero only for axis-aligned edges; negating the
second component - as chance_constraints does at line 455 - yields a vector
that is always perpendicular to the edge. -/
theorem c3_unit_but_not_rotated (p1 p2 : ℝ × ℝ)
    (h : (p1.2 - p2.2) ^ 2 + (p1.1 - p2.1) ^ 2 ≠ 0) :
    Real.sqrt ((aVec p1 p2).1 ^ 2 + (aVec p1 p2).2 ^ 2) = 1 ∧
      (aVec p1 p2).1 * (p2.1 - p1.1) + (aVec p1 p2).2 * (p2.2 - p1.2) =
        -(2 * (p1.1 - p2.1) * (p1.2 - p2.2)) /
          Real.sqrt ((p1.2 - p2.2) ^ 2 + (p1.1 - p2.1) ^ 2) ∧
      (aVec p1 p2).1 * (p2.1 - p1.1) + (-(aVec p1 p2).2) * (p2.2 - p1.2)
        = 0 := by
  have hnn : (0 : ℝ) ≤ (p1.2 - p2.2) ^ 2 + (p1.1 - p2.1) ^ 2 := by positivity
  have hpos : (0 : ℝ) < (p1.2 - p2.2) ^ 2 + (p1.1 - p2.1) ^ 2 :=
    lt_of_le_of_ne hnn (Ne.symm h)
  have hs : (0 : ℝ) < Real.sqrt ((p1.2 - p2.2) ^ 2 + (p1.1 - p2.1) ^ 2) :=
    Real.sqrt_pos.mpr hpos
  have hsne : Real.sqrt ((p1.2 - p2.2) ^ 2 + (p1.1 - p2.1) ^ 2) ≠ 0 :=
    ne_of_gt hs
  have hsq : Real.sqrt ((p1.2 - p2.2) ^ 2 + (p1.1 - p2.1) ^ 2) ^ 2 =
      (p1.2 - p2.2) ^ 2 + (p1.1 - p2.1) ^ 2 := Real.sq_sqrt hnn
  refine ⟨?_, ?_, ?_⟩
  · unfold aVec
    rw [div_pow, div_pow, div_add_div_same, hsq, div_self (ne_of_gt hpos),
      Real.sqrt_one]
  · unfold aVec
    field_simp
    ring
  · unfold aVec
    field_simp
    ring

/-- C3 witness: the preprocessor's vector for the edge (5,5)-(6,7) has
Euclidean norm 1. -/
theorem c3_unit_but_not_rotated_witness :
    Real.sqrt ((aVec (5, 5) (6, 7)).1 ^ 2 + (aVec (5, 5) (6, 7)).2 ^ 2) = 1 :=
  (c3_unit_but_not_rotated (5, 5) (6, 7) (by norm_num)).1

/-- C4: the quantity the dynamics-branch selection compares with
maxComm_distance is not the Euclidean inter-agent distance.  With own
position (0,3) and the other agent at (0,1) the source expression is
sqrt 2 although the Euclidean distance is 2, and with maxComm_distance 1.5
the source selects the fusion branch where the Euclidean rule of the claim
selects the no-fusion branch. -/
theorem c4_distance_expression_bug :
    commDistExpr 0 3 0 1 ≠ euclidDistSpec 0 3 0 1 ∧
      dynamicsBranch (commDistExpr 0 3 0 1) (3 / 2) = DynBranch.fusion ∧
      dynamicsBranch (euclidDistSpec 0 3 0 1) (3 / 2) = DynBranch.noFusion := by
  have h1 : commDistExpr 0 3 0 1 = Real.sqrt 2 := by
    unfold commDistExpr
    norm_num
  have h2 : euclidDistSpec 0 3 0 1 = 2 := by
    unfold euclidDistSpec
    rw [show ((0 : ℝ) - 0) ^ 2 + ((3 : ℝ) - 1) ^ 2 = 2 ^ 2 by norm_num]
    exact Real.sqrt_sq (by norm_num)
  have hlt : Real.sqrt 2 < 3 / 2 := by
    rw [Real.sqrt_lt' (by norm_num)]
    norm_num
  refine ⟨?_, ?_, ?_⟩
  · rw [h1, h2]
    exact ne_of_lt (lt_trans hlt (by norm_num))
  · rw [h1]
    unfold dynamicsBranch
    rw [if_neg (not_le.mpr hlt), if_pos hlt]
  · rw [h2]
    unfold dynamicsBranch
    rw [if_pos (by norm_num)]

/-- C1: the chance-constraint tightening margins of lines 460-462 are all
zero, for every robot size and whatever the per-obstacle risk fields or the
horizon-indexed covariances hold: the code hardcodes risk = 0.5, the erfinv
factor is erfinv(1 - 2 * 0.5) = erfinv 0 = 0, and the covariance read is
the fixed construction-time r1_cov_curr, never the fusion model's
horizon-indexed covariance. -/
theorem c1_margins_are_zero (erfinv : ℝ → ℝ) (robot_size : ℝ)
    (herf : erfinv 0 = 0) :
    margin erfinv robot_size chance_a1 = 0 ∧
      margin erfinv robot_size chance_a2 = 0 ∧
      margin erfinv robot_size chance_a3 = 0 := by
  unfold margin
  norm_num [herf]

/-- C1 witness: with the true value erfinv 0 = 0 and the shipped robot
size 0.5 the first edge's margin is zero. -/
theorem c1_margins_are_zero_witness :
    margin (fun _ => 0) (1 / 2) chance_a1 = 0 :=
  (c1_margins_are_zero (fun _ => 0) (1 / 2) rfl).1

theorem margin_efZero (robot_size : ℝ) (a : ℝ × ℝ) :
    margin efZero robot_size a = 0 := by
  unfold margin efZero
  norm_num

theorem raw1_at66 : chance_a1.1 * 6 + chance_a1.2 * 6 - chance_b1 < 0 := by
  unfold chance_a1 chance_b1 interceptOf slopeOf
  norm_num

theorem raw2_at66 : chance_a2.1 * 6 + chance_a2.2 * 6 - chance_b2 < 0 := by
  unfold chance_a2 chance_b2 interceptOf slopeOf
  norm_num

theorem raw3_at66 : chance_a3.1 * 6 + chance_a3.2 * 6 - chance_b3 < 0 := by
  unfold chance_a3 chance_b3 aVec interceptOf slopeOf
  norm_num
  have h25 : Real.sqrt 25 = 5 := by
    rw [show (25 : ℝ) = 5 ^ 2 by norm_num]
    exact Real.sqrt_sq (by norm_num)
  rw [h25]
  have hpos : (0 : ℝ) < Real.sqrt 101 := Real.sqrt_pos.mpr (by norm_num)
  have hne : Real.sqrt 101 ≠ 0 := ne_of_gt hpos
  have hlt : Real.sqrt 101 < 12 := by
    rw [Real.sqrt_lt' (by norm_num)]
    norm_num
  have e1 : (1 : ℝ) / 5 / (Real.sqrt 101 / 5) * 6 = 6 / Real.sqrt 101 := by
    field_simp
  have e2 : (2 : ℝ) / (Real.sqrt 101 / 5) * 6 = 60 / Real.sqrt 101 := by
    rw [div_div_eq_mul_div, div_mul_eq_mul_div, mul_comm]
    rw [div_eq_div_iff hne hne]
    ring
  rw [e1, e2]
  have e4 : (9 : ℝ) / 2 < 54 / Real.sqrt 101 := by
    rw [lt_div_iff₀ hpos]
    linarith
  have e5 : (6 : ℝ) / Real.sqrt 101 + -(60 / Real.sqrt 101) =
      -(54 / Real.sqrt 101) := by ring
  rw [e5]
  linarith

theorem sign1_at66 :
    edgeSign chance_a1 chance_b1 (margin efZero (1 / 2) chance_a1) (6, 6) = -1 := by
  show (if chance_a1.1 * (6 : ℝ) + chance_a1.2 * 6 - chance_b1 ≥
      margin efZero (1 / 2) chance_a1 then (1 : ℤ) else -1) = -1
  rw [margin_efZero, if_neg (not_le.mpr raw1_at66)]

theorem sign2_at66 :
    edgeSign chance_a2 chance_b2 (margin efZero (1 / 2) chance_a2) (6, 6) = -1 := by
  show (if chance_a2.1 * (6 : ℝ) + chance_a2.2 * 6 - chance_b2 ≥
      margin efZero (1 / 2) chance_a2 then (1 : ℤ) else -1) = -1
  rw [margin_efZero, if_neg (not_le.mpr raw2_at66)]

theorem sign3_at66 :
    edgeSign chance_a3 chance_b3 (margin efZero (1 / 2) chance_a3) (6, 6) = -1 := by
  show (if chance_a3.1 * (6 : ℝ) + chance_a3.2 * 6 - chance_b3 ≥
      margin efZero (1 / 2) chance_a3 then (1 : ℤ) else -1) = -1
  rw [margin_efZero, if_neg (not_le.mpr raw3_at66)]

theorem emitFlags_at66 (fc : ℤ × ℤ × ℤ) :
    emitFlags efZero (1 / 2) fc (6, 6) = (-1, -1, fc.2.2) := by
  simp only [emitFlags]
  rw [sign1_at66, sign2_at66, sign3_at66]
  norm_num

theorem edgeSign_cases (a : ℝ × ℝ) (b c : ℝ) (p : ℝ × ℝ) :
    edgeSign a b c p = 1 ∨ edgeSign a b c p = -1 := by
  unfold edgeSign
  split
  · exact Or.inl rfl
  · exact Or.inr rfl

/-- C2 counterexample: at position (6,6) - a possible value of X[0:2,i] at
horizon step i = 1 - all three raw edge constraints are violated.  Suppose
the previous solve's flags were (-1,-1,-1) at step 0 (the value the driver
loads into flag_const, line 625) and (1,1,1) at step 1.  The flag emitted
at step 1 is then (-1,-1,-1), not (1,1,1): the fallback does not read the
previous solve's flag at the same horizon index, it reads the step-0
flag_const, and only in its third component. -/
theorem c2_counterexample :
    chance_a1.1 * 6 + chance_a1.2 * 6 - chance_b1 < 0 ∧
      chance_a2.1 * 6 + chance_a2.2 * 6 - chance_b2 < 0 ∧
      chance_a3.1 * 6 + chance_a3.2 * 6 - chance_b3 < 0 ∧
      emitFlags efZero (1 / 2) (-1, -1, -1) (6, 6) = (-1, -1, -1) ∧
      ((-1, -1, -1) : ℤ × ℤ × ℤ) ≠ (1, 1, 1) :=
  ⟨raw1_at66, raw2_at66, raw3_at66, by rw [emitFlags_at66], by decide⟩

/-- C2 amended: the flags of the first two edges are always the freshly
recomputed signs (their cumulative-sum guards s1 = -3 and s1 + s2 = -3 can
never hold for signs taking only the values 1 and -1); only the third edge's flag falls
back, and it falls back to the third component of flag_const - the previous
solve's flag at horizon index 0, whatever the current step i is - exactly
when all three fresh signs are -1.  Moreover, whenever erfinv 0 = 0 holds
(as for the true inverse error function), a fresh sign of -1 means exactly
that the raw untightened constraint of that edge is violated, since every
tightening margin is zero. -/
theorem c2_flag_fallback (erfinv : ℝ → ℝ) (robot_size : ℝ)
    (fc : ℤ × ℤ × ℤ) (p : ℝ × ℝ) :
    emitFlags erfinv robot_size fc p =
      (edgeSign chance_a1 chance_b1 (margin erfinv robot_size chance_a1) p,
        edgeSign chance_a2 chance_b2 (margin erfinv robot_size chance_a2) p,
        if edgeSign chance_a1 chance_b1 (margin erfinv robot_size chance_a1) p
              = -1 ∧
            edgeSign chance_a2 chance_b2 (margin erfinv robot_size chance_a2) p
              = -1 ∧
            edgeSign chance_a3 chance_b3 (margin erfinv robot_size chance_a3) p
              = -1
          then fc.2.2
          else edgeSign chance_a3 chance_b3
            (margin erfinv robot_size chance_a3) p) ∧
      (erfinv 0 = 0 →
        (edgeSign chance_a1 chance_b1 (margin erfinv robot_size chance_a1) p
            = -1 ↔
          chance_a1.1 * p.1 + chance_a1.2 * p.2 - chance_b1 < 0)) := by
  constructor
  · rcases edgeSign_cases chance_a1 chance_b1
        (margin erfinv robot_size chance_a1) p with h1 | h1 <;>
      rcases edgeSign_cases chance_a2 chance_b2
        (margin erfinv robot_size chance_a2) p with h2 | h2 <;>
      rcases edgeSign_cases chance_a3 chance_b3
        (margin erfinv robot_size chance_a3) p with h3 | h3 <;>
      simp [emitFlags, h1, h2, h3]
  · intro herf
    have h0 : margin erfinv robot_size chance_a1 = 0 := by
      unfold margin
      norm_num [herf]
    rw [h0]
    unfold edgeSign
    split
    next hge =>
      constructor
      · intro h
        exact absurd h (by norm_num)
      · intro h
        exact absurd hge (not_le.mpr h)
    next hlt =>
      constructor
      · intro _
        exact not_le.mp hlt
      · intro _
        rfl

end SMPC
